import Mathlib

/-!
Verification of the job-queue service in `src/index.ts`.

The source is a single-file GraphQL/TypeORM application.  The resolver
`JobsResolver` exposes two queries (`jobs`, `logMessages`) and four
mutations (`getJob`, `createJobWorker`, `createJob`, `createLogMessage`)
over three record sets stored in SQLite: `jobs`, `workers`,
`log_messages`.  We embed the persisted state as explicit lists kept in
insertion (rowid) order together with the auto-increment counters and a
logical clock for the `createdAt` / `updatedAt` stamps, and each resolver
method as a pure state-passing function returning `Except` for the
thrown `ApolloError`s.
-/

namespace JobQueue

/-- Status enum from the source (`enum JobStatus`); the numeric codes
waiting = 100, running = 200, finished = 300 play no role beyond identity. -/
inductive JobStatus where
  | waiting
  | running
  | finished
deriving DecidableEq, Repr

/-- A row of the `jobs` table (entity `Job`): generated id, `name`,
`priority` (column default 1000), `status` (default waiting), creation and
update stamps, optional `inData` / `outData`, and the `job_worker`
many-to-one reference, embedded as the owning worker's id. -/
structure Job where
  id : Nat
  name : String
  priority : Int
  status : JobStatus
  createdAt : Nat
  updatedAt : Nat
  inData : Option String
  outData : Option String
  job_worker : Option Nat
deriving DecidableEq, Repr

/-- A row of the `workers` table (entity `JobWorker`). -/
structure JobWorker where
  id : Nat
  name : String
  createdAt : Nat
  updatedAt : Nat
deriving DecidableEq, Repr

/-- A row of the `log_messages` table (entity `LogMessage`); the mandatory
`job` and `job_worker` many-to-one references are embedded as ids. -/
structure LogMessage where
  id : Nat
  text : String
  createdAt : Nat
  updatedAt : Nat
  job_worker : Nat
  job : Nat
deriving DecidableEq, Repr

/-- The persisted state: the three record sets in rowid (insertion) order,
the next auto-generated id for each, and a logical clock supplying the
`CreateDateColumn` / `UpdateDateColumn` stamps. -/
structure DB where
  jobs : List Job
  workers : List JobWorker
  log_messages : List LogMessage
  nextJobId : Nat
  nextWorkerId : Nat
  nextLogId : Nat
  now : Nat
deriving DecidableEq, Repr

/-- Input type `CreateJobInput` (`name`, optional `inData`, optional `priority`). -/
structure CreateJobInput where
  name : String
  inData : Option String
  priority : Option Int
deriving DecidableEq, Repr

/-- Input type `CreateJobWorkerInput`. -/
structure CreateJobWorkerInput where
  name : String
deriving DecidableEq, Repr

/-- Input type `GetJobInput`. -/
structure GetJobInput where
  workerId : Nat
deriving DecidableEq, Repr

/-- Input type `CreateLogMessageInput`. -/
structure CreateLogMessageInput where
  jobId : Nat
  workerId : Nat
  text : String
deriving DecidableEq, Repr

/-- The `ApolloError`s thrown by the resolver, by the entity they name:
`getJob` rejects with "JobWorker N not found", `createLogMessage` throws
"Job N not found" or "Worker N not found". -/
inductive Err where
  | notFoundWorker (id : Nat)
  | notFoundJob (id : Nat)
deriving DecidableEq, Repr

/-- Embeds `manager.findOne(JobWorker, workerId)` / `JobWorker.findOne(id)`:
look the worker up by primary key. -/
def findWorker (db : DB) (wid : Nat) : Option JobWorker :=
  db.workers.find? (fun w => w.id == wid)

/-- Embeds `Job.findOne(jobId)`: look the job up by primary key. -/
def findJobById (db : DB) (jid : Nat) : Option Job :=
  db.jobs.find? (fun j => j.id == jid)

/-- Embeds the selection query of `getJob`:
`manager.findOne(Job, { where: { status: JobStatus.waiting } })`.
The query carries no order clause, so SQLite yields the first matching
row in rowid (insertion) order; `priority` is not consulted. -/
def findOneWaiting (jobs : List Job) : Option Job :=
  jobs.find? (fun j => j.status == JobStatus.waiting)

/-- Embeds the mutation `getJob` (the ClaimJob operation): inside one
transaction, look up the worker (reject with not-found when absent), find
the first waiting job (resolve null when none), otherwise set its
`job_worker` and `status := running`, save (stamping `updatedAt`), and
return the claimed job.  The state is returned alongside; error and
no-result paths perform no write. -/
def getJob (db : DB) (data : GetJobInput) : Except Err (Option Job) × DB :=
  match findWorker db data.workerId with
  | none => (Except.error (Err.notFoundWorker data.workerId), db)
  | some w =>
    match findOneWaiting db.jobs with
    | none => (Except.ok none, db)
    | some j =>
      let j' : Job :=
        { j with job_worker := some w.id, status := JobStatus.running, updatedAt := db.now }
      (Except.ok (some j'),
        { db with jobs := db.jobs.map (fun k => if k.id == j.id then j' else k),
                  now := db.now + 1 })

/-- Embeds the mutation `createJobWorker`: create and save a worker with
the given name. -/
def createJobWorker (db : DB) (data : CreateJobWorkerInput) : JobWorker × DB :=
  let w : JobWorker :=
    { id := db.nextWorkerId, name := data.name, createdAt := db.now, updatedAt := db.now }
  (w, { db with workers := db.workers ++ [w], nextWorkerId := db.nextWorkerId + 1,
                now := db.now + 1 })

/-- Embeds `data.priority || 1000` from `createJob`: JavaScript `||` falls
back to 1000 on every falsy value, so an explicit priority of 0 is also
replaced by 1000, not only an omitted one. -/
def defaultPriority (p : Option Int) : Int :=
  match p with
  | none => 1000
  | some v => if v == 0 then 1000 else v

/-- Embeds the mutation `createJob`: create and save a job with the given
name and optional `inData`, priority defaulted by `||`, status waiting,
no owner, both stamps at creation time. -/
def createJob (db : DB) (data : CreateJobInput) : Job × DB :=
  let j : Job :=
    { id := db.nextJobId, name := data.name, priority := defaultPriority data.priority,
      status := JobStatus.waiting, createdAt := db.now, updatedAt := db.now,
      inData := data.inData, outData := none, job_worker := none }
  (j, { db with jobs := db.jobs ++ [j], nextJobId := db.nextJobId + 1, now := db.now + 1 })

/-- Embeds the mutation `createLogMessage` (the AppendLog operation): fetch
the job and the worker by id, throw not-found naming the job when the job
is absent, then not-found naming the worker when the worker is absent,
otherwise create and save a message referencing both.  Error paths
perform no write. -/
def createLogMessage (db : DB) (data : CreateLogMessageInput) :
    Except Err LogMessage × DB :=
  let jobFound := findJobById db data.jobId
  let workerFound := findWorker db data.workerId
  match jobFound with
  | none => (Except.error (Err.notFoundJob data.jobId), db)
  | some job =>
    match workerFound with
    | none => (Except.error (Err.notFoundWorker data.workerId), db)
    | some w =>
      let m : LogMessage :=
        { id := db.nextLogId, text := data.text, createdAt := db.now, updatedAt := db.now,
          job_worker := w.id, job := job.id }
      (Except.ok m,
        { db with log_messages := db.log_messages ++ [m], nextLogId := db.nextLogId + 1,
                  now := db.now + 1 })

/-- The complete mutation surface of `JobsResolver` (src/index.ts lines
181-261).  The resolver exposes exactly these four mutations; the two
queries (`jobs`, `logMessages`) read without writing. -/
inductive Mutation where
  | getJob (data : GetJobInput)
  | createJobWorker (data : CreateJobWorkerInput)
  | createJob (data : CreateJobInput)
  | createLogMessage (data : CreateLogMessageInput)
deriving DecidableEq, Repr

/-- The state reached by running one resolver mutation. -/
def applyMutation (db : DB) : Mutation → DB
  | Mutation.getJob d => (getJob db d).2
  | Mutation.createJobWorker d => (createJobWorker db d).2
  | Mutation.createJob d => (createJob db d).2
  | Mutation.createLogMessage d => (createLogMessage db d).2

/-- The ownership invariant of the spec: a job has an assigned worker
exactly when its status is running or finished. -/
def ownerInv (j : Job) : Prop :=
  j.job_worker.isSome = true ↔ (j.status = JobStatus.running ∨ j.status = JobStatus.finished)

instance (j : Job) : Decidable (ownerInv j) := by
  unfold ownerInv; infer_instance

/-- One admissible evolution of a single job row: identity and the
immutable attributes (`name`, `priority`, `inData`, `createdAt`) are
preserved, and the status either stays put or advances one step along
waiting → running → finished. -/
def stepOK (old new : Job) : Prop :=
  new.id = old.id ∧ new.name = old.name ∧ new.priority = old.priority ∧
  new.inData = old.inData ∧ new.createdAt = old.createdAt ∧
  (new.status = old.status ∨
    (old.status = JobStatus.waiting ∧ new.status = JobStatus.running) ∨
    (old.status = JobStatus.running ∧ new.status = JobStatus.finished))

instance (a b : Job) : Decidable (stepOK a b) := by
  unfold stepOK; infer_instance

/-- Well-formedness of the persisted state: primary keys of `jobs` are
distinct and below the auto-increment counter, and every row satisfies
the ownership invariant. -/
def DB.wf (db : DB) : Prop :=
  (db.jobs.map Job.id).Nodup ∧
  (∀ j ∈ db.jobs, j.id < db.nextJobId) ∧
  (∀ j ∈ db.jobs, ownerInv j)

instance (db : DB) : Decidable db.wf := by
  unfold DB.wf; infer_instance

/-- Modelled from the spec: the selection contract of §4.2, a strict
total order on jobs by ascending priority value, then earliest creation
stamp, then ascending identifier.  The source contains no such ordering. -/
def specBefore (a b : Job) : Bool :=
  a.priority < b.priority ||
    (a.priority == b.priority && (a.createdAt < b.createdAt ||
      (a.createdAt == b.createdAt && a.id < b.id)))

/-- Modelled from the spec: the job ClaimJob ought to select — the least
waiting job under `specBefore`. -/
def specSelectWaiting (jobs : List Job) : Option Job :=
  (jobs.filter (fun j => j.status == JobStatus.waiting)).foldl
    (fun acc j =>
      match acc with
      | none => some j
      | some k => if specBefore j k then some j else some k)
    none

/-- The empty database as created by `synchronize`. -/
def db0 : DB :=
  { jobs := [], workers := [], log_messages := [], nextJobId := 1, nextWorkerId := 1,
    nextLogId := 1, now := 0 }

/-- One registered worker, no jobs. -/
def dbW : DB := (createJobWorker db0 { name := "w1" }).2

/-- One worker and one waiting job (id 1, priority 5). -/
def dbWJ : DB := (createJob dbW { name := "build", inData := none, priority := some 5 }).2

/-- One worker and two waiting jobs (ids 1 and 2), the end-to-end example
state of the spec just before the first ClaimJob. -/
def dbEx : DB := (createJob dbWJ { name := "deploy", inData := none, priority := some 10 }).2

/-- The job the first ClaimJob on `dbEx` returns. -/
def jClaim : Job :=
  { id := 1, name := "build", priority := 5, status := JobStatus.running, createdAt := 1,
    updatedAt := 3, inData := none, outData := none, job_worker := some 1 }

/-- The state after the first ClaimJob on `dbEx`. -/
def dbClaimed : DB := (getJob dbEx { workerId := 1 }).2

/-- A state where insertion order and priority order disagree: the job
created first (id 1, stamp 0) has priority 10, the one created second
(id 2, stamp 1) has priority 5; one worker (id 1) is registered. -/
def dbC1 : DB :=
  { jobs :=
      [{ id := 1, name := "build", priority := 10, status := JobStatus.waiting, createdAt := 0,
         updatedAt := 0, inData := none, outData := none, job_worker := none },
       { id := 2, name := "deploy", priority := 5, status := JobStatus.waiting, createdAt := 1,
         updatedAt := 1, inData := none, outData := none, job_worker := none }],
    workers := [{ id := 1, name := "w1", createdAt := 0, updatedAt := 0 }],
    log_messages := [], nextJobId := 3, nextWorkerId := 2, nextLogId := 1, now := 2 }

/-- A CreateJob input supplying a non-zero priority. -/
def inp9 : CreateJobInput := { name := "deploy", inData := none, priority := some 7 }

/-! ### Helper lemmas -/

theorem stepOK_refl (j : Job) : stepOK j j :=
  ⟨rfl, rfl, rfl, rfl, rfl, Or.inl rfl⟩

theorem createJobWorker_jobs_eq (db : DB) (d : CreateJobWorkerInput) :
    ((createJobWorker db d).2).jobs = db.jobs := rfl

theorem createJobWorker_nextJobId_eq (db : DB) (d : CreateJobWorkerInput) :
    ((createJobWorker db d).2).nextJobId = db.nextJobId := rfl

theorem createLogMessage_jobs_eq (db : DB) (d : CreateLogMessageInput) :
    ((createLogMessage db d).2).jobs = db.jobs := by
  simp only [createLogMessage]
  cases findJobById db d.jobId with
  | none => rfl
  | some job =>
    cases findWorker db d.workerId with
    | none => rfl
    | some w => rfl

theorem createLogMessage_nextJobId_eq (db : DB) (d : CreateLogMessageInput) :
    ((createLogMessage db d).2).nextJobId = db.nextJobId := by
  simp only [createLogMessage]
  cases findJobById db d.jobId with
  | none => rfl
  | some job =>
    cases findWorker db d.workerId with
    | none => rfl
    | some w => rfl

/-- A state with the same job table and job id counter inherits
well-formedness and trivially satisfies the step correspondence. -/
theorem wf_step_of_jobs_eq (db db2 : DB) (hjobs : db2.jobs = db.jobs)
    (hnid : db2.nextJobId = db.nextJobId) (h : db.wf) :
    db2.wf ∧ List.Forall₂ stepOK db.jobs (db2.jobs.take db.jobs.length) ∧
      ∀ j ∈ db2.jobs.drop db.jobs.length,
        j.status = JobStatus.waiting ∧ j.job_worker = none := by
  obtain ⟨hnd, hlt, hinv⟩ := h
  refine ⟨⟨by rw [hjobs]; exact hnd, by rw [hjobs, hnid]; exact hlt,
           by rw [hjobs]; exact hinv⟩, ?_, ?_⟩
  · rw [hjobs, List.take_length]
    exact List.forall₂_same.mpr fun x _ => stepOK_refl x
  · rw [hjobs, List.drop_length]
    simp

/-! ### C5: ClaimJob on a missing worker fails with not-found and touches nothing -/

/-- C5: for every state and every workerId referencing no existing worker,
`getJob` fails with the not-found error naming that worker and returns the
state unchanged, so no job's status or owner is modified. -/
theorem getJob_missing_worker (db : DB) (d : GetJobInput)
    (h : ∀ w ∈ db.workers, w.id ≠ d.workerId) :
    getJob db d = (Except.error (Err.notFoundWorker d.workerId), db) := by
  have hf : findWorker db d.workerId = none := by
    apply List.find?_eq_none.mpr
    intro w hw
    simpa using h w hw
  simp [getJob, hf]

/-- C5 witness: on the empty database, claiming for worker 1 fails with
not-found and leaves the state unchanged. -/
theorem getJob_missing_worker_witness :
    (∀ w ∈ db0.workers, w.id ≠ 1) ∧
      getJob db0 { workerId := 1 } = (Except.error (Err.notFoundWorker 1), db0) :=
  ⟨by decide, getJob_missing_worker db0 { workerId := 1 } (by decide)⟩

/-! ### C10: AppendLog with both references missing reports the job -/

/-- C10: when the jobId and the workerId both reference no existing
record, `createLogMessage` fails with the not-found error naming the job
(the job check runs first) and returns the state unchanged. -/
theorem createLogMessage_both_missing (db : DB) (d : CreateLogMessageInput)
    (hj : ∀ j ∈ db.jobs, j.id ≠ d.jobId) (_hw : ∀ w ∈ db.workers, w.id ≠ d.workerId) :
    createLogMessage db d = (Except.error (Err.notFoundJob d.jobId), db) := by
  have hf : findJobById db d.jobId = none := by
    apply List.find?_eq_none.mpr
    intro j hjm
    simpa using hj j hjm
  simp [createLogMessage, hf]

/-- C10 witness: on the empty database, appending a log for job 5 and
worker 6 fails naming job 5. -/
theorem createLogMessage_both_missing_witness :
    (∀ j ∈ db0.jobs, j.id ≠ 5) ∧ (∀ w ∈ db0.workers, w.id ≠ 6) ∧
      createLogMessage db0 { jobId := 5, workerId := 6, text := "x" } =
        (Except.error (Err.notFoundJob 5), db0) :=
  ⟨by decide, by decide,
    createLogMessage_both_missing db0 { jobId := 5, workerId := 6, text := "x" }
      (by decide) (by decide)⟩

/-! ### C9: CreateJob defaults -/

/-- C9 counterexample: a CreateJob call that supplies priority 0 creates a
job with priority 1000, not the supplied 0 — JavaScript `||` also replaces
an explicit falsy 0 — so the claim as stated is false. -/
theorem createJob_zero_priority_counterexample :
    ({ name := "build", inData := none, priority := some 0 } : CreateJobInput).priority
        = some 0 ∧
      (createJob db0 { name := "build", inData := none, priority := some 0 }).1.priority
        = 1000 ∧
      (1000 : Int) ≠ 0 :=
  ⟨rfl, by decide, by decide⟩

/-- C9 amended: for every CreateJob call with a non-empty name, the call
succeeds and the created job has status waiting, no owner, priority equal
to the supplied priority whenever a non-zero priority is supplied, and
priority 1000 when the priority is omitted or is 0; the job is appended
to the store. -/
theorem createJob_spec_amended (db : DB) (d : CreateJobInput) (_h : d.name ≠ "") :
    (createJob db d).1.status = JobStatus.waiting ∧
    (createJob db d).1.job_worker = none ∧
    (∀ p : Int, d.priority = some p → p ≠ 0 → (createJob db d).1.priority = p) ∧
    ((d.priority = none ∨ d.priority = some 0) → (createJob db d).1.priority = 1000) ∧
    ((createJob db d).2).jobs = db.jobs ++ [(createJob db d).1] := by
  refine ⟨rfl, rfl, ?_, ?_, rfl⟩
  · intro p hp hp0
    simp [createJob, defaultPriority, hp, hp0]
  · intro hcase
    rcases hcase with hc | hc <;> simp [createJob, defaultPriority, hc]

/-- C9 witness: creating a job with supplied priority 7 on the empty
database yields a waiting, unowned job of priority 7, appended to the
store. -/
theorem createJob_spec_amended_witness :
    (createJob db0 inp9).1.status = JobStatus.waiting ∧
      (createJob db0 inp9).1.job_worker = none ∧
      (∀ p : Int, inp9.priority = some p → p ≠ 0 → (createJob db0 inp9).1.priority = p) ∧
      ((inp9.priority = none ∨ inp9.priority = some 0) →
        (createJob db0 inp9).1.priority = 1000) ∧
      ((createJob db0 inp9).2).jobs = db0.jobs ++ [(createJob db0 inp9).1] :=
  createJob_spec_amended db0 inp9 (by decide)

/-! ### C1: the selection query ignores the contractual order -/

/-- C1: in `dbC1` both jobs are waiting and worker 1 exists; `getJob`
returns the job with id 1 and priority 10 (the first row in insertion
order), while the least waiting job under the contractual order of the
spec is the job with id 2 and priority 5 — the selection query ignores
priority, confirming the defect the spec flags. -/
theorem getJob_ignores_priority_order :
    (∃ j : Job, (getJob dbC1 { workerId := 1 }).1 = Except.ok (some j) ∧
      j.id = 1 ∧ j.priority = 10) ∧
    (∃ k : Job, specSelectWaiting dbC1.jobs = some k ∧ k.id = 2 ∧ k.priority = 5) ∧
    (∀ j ∈ dbC1.jobs, j.status = JobStatus.waiting) ∧
    (∃ w ∈ dbC1.workers, w.id = 1) := by
  refine ⟨⟨_, rfl, rfl, rfl⟩, ⟨_, rfl, rfl, rfl⟩, by decide, by decide⟩

/-! ### C6: no waiting job means an explicit non-error no-result -/

/-- C6: for every state in which the worker exists and no job is waiting,
`getJob` returns the ok-null outcome with the state unchanged, and that
outcome is structurally distinct from every error outcome. -/
theorem getJob_no_waiting (db : DB) (d : GetJobInput)
    (hw : ∃ w ∈ db.workers, w.id = d.workerId)
    (hj : ∀ j ∈ db.jobs, j.status ≠ JobStatus.waiting) :
    getJob db d = (Except.ok none, db) ∧
      ∀ e : Err, (Except.ok none : Except Err (Option Job)) ≠ Except.error e := by
  refine ⟨?_, fun e h => Except.noConfusion h⟩
  have hfw : (findWorker db d.workerId).isSome := by
    rw [findWorker, List.find?_isSome]
    obtain ⟨w, hwm, hwid⟩ := hw
    exact ⟨w, hwm, by simpa using hwid⟩
  obtain ⟨w, hww⟩ := Option.isSome_iff_exists.mp hfw
  have hnw : findOneWaiting db.jobs = none := by
    apply List.find?_eq_none.mpr
    intro j hjm
    simpa using hj j hjm
  simp [getJob, hww, hnw]

/-- C6 witness: with worker 1 registered and an empty job table, ClaimJob
returns the ok-null outcome unchanged. -/
theorem getJob_no_waiting_witness :
    getJob dbW { workerId := 1 } = (Except.ok none, dbW) ∧
      ∀ e : Err, (Except.ok none : Except Err (Option Job)) ≠ Except.error e :=
  getJob_no_waiting dbW { workerId := 1 } (by decide) (by decide)

/-! ### C7: AppendLog validates both references and only appends -/

/-- C7: `createLogMessage` validates both references: when the job is
missing it fails naming the job with the state unchanged; when the job
exists but the worker is missing it fails naming the worker with the
state unchanged; when both exist it appends one message linked to both
ids and leaves the jobs and workers record sets untouched. -/
theorem createLogMessage_checks_references (db : DB) (d : CreateLogMessageInput) :
    ((∀ j ∈ db.jobs, j.id ≠ d.jobId) →
      createLogMessage db d = (Except.error (Err.notFoundJob d.jobId), db)) ∧
    ((∃ j ∈ db.jobs, j.id = d.jobId) → (∀ w ∈ db.workers, w.id ≠ d.workerId) →
      createLogMessage db d = (Except.error (Err.notFoundWorker d.workerId), db)) ∧
    ((∃ j ∈ db.jobs, j.id = d.jobId) → (∃ w ∈ db.workers, w.id = d.workerId) →
      ∃ m : LogMessage,
        createLogMessage db d =
          (Except.ok m,
            { db with log_messages := db.log_messages ++ [m], nextLogId := db.nextLogId + 1,
                      now := db.now + 1 }) ∧
        m.job = d.jobId ∧ m.job_worker = d.workerId) := by
  refine ⟨?_, ?_, ?_⟩
  · intro hj
    have hf : findJobById db d.jobId = none := by
      apply List.find?_eq_none.mpr
      intro j hjm
      simpa using hj j hjm
    simp [createLogMessage, hf]
  · intro hj hw
    have hfj : (findJobById db d.jobId).isSome := by
      rw [findJobById, List.find?_isSome]
      obtain ⟨j, hjm, hjid⟩ := hj
      exact ⟨j, hjm, by simpa using hjid⟩
    obtain ⟨job, hjj⟩ := Option.isSome_iff_exists.mp hfj
    have hfw : findWorker db d.workerId = none := by
      apply List.find?_eq_none.mpr
      intro w hwm
      simpa using hw w hwm
    simp [createLogMessage, hjj, hfw]
  · intro hj hw
    have hfj : (findJobById db d.jobId).isSome := by
      rw [findJobById, List.find?_isSome]
      obtain ⟨j, hjm, hjid⟩ := hj
      exact ⟨j, hjm, by simpa using hjid⟩
    obtain ⟨job, hjj⟩ := Option.isSome_iff_exists.mp hfj
    have hfw : (findWorker db d.workerId).isSome := by
      rw [findWorker, List.find?_isSome]
      obtain ⟨w, hwm, hwid⟩ := hw
      exact ⟨w, hwm, by simpa using hwid⟩
    obtain ⟨w, hww⟩ := Option.isSome_iff_exists.mp hfw
    have hjobid : job.id = d.jobId := by
      have := List.find?_some (show db.jobs.find? (fun j => j.id == d.jobId) = some job
        from hjj)
      simpa using this
    have hwid : w.id = d.workerId := by
      have := List.find?_some (show db.workers.find? (fun x => x.id == d.workerId) = some w
        from hww)
      simpa using this
    refine ⟨{ id := db.nextLogId, text := d.text, createdAt := db.now, updatedAt := db.now,
              job_worker := w.id, job := job.id }, ?_, by simpa using hjobid,
            by simpa using hwid⟩
    simp [createLogMessage, hjj, hww]

/-- C7 witness: on the one-job one-worker state, the three cases are
exercised at concrete inputs: a missing job is named, a missing worker is
named, and a valid pair appends one message linked to both. -/
theorem createLogMessage_checks_references_witness :
    (createLogMessage dbWJ { jobId := 7, workerId := 1, text := "t" } =
        (Except.error (Err.notFoundJob 7), dbWJ)) ∧
      (createLogMessage dbWJ { jobId := 1, workerId := 9, text := "t" } =
        (Except.error (Err.notFoundWorker 9), dbWJ)) ∧
      (∃ m : LogMessage,
        createLogMessage dbWJ { jobId := 1, workerId := 1, text := "t" } =
          (Except.ok m,
            { dbWJ with log_messages := dbWJ.log_messages ++ [m],
                        nextLogId := dbWJ.nextLogId + 1, now := dbWJ.now + 1 }) ∧
        m.job = 1 ∧ m.job_worker = 1) :=
  ⟨(createLogMessage_checks_references dbWJ { jobId := 7, workerId := 1, text := "t" }).1
      (by decide),
   (createLogMessage_checks_references dbWJ { jobId := 1, workerId := 9, text := "t" }).2.1
      (by decide) (by decide),
   (createLogMessage_checks_references dbWJ { jobId := 1, workerId := 1, text := "t" }).2.2
      (by decide) (by decide)⟩

/-! ### C4: a successful claim runs the job for the caller and changes nothing else -/

/-- C4: whenever `getJob` returns a job, that job has status running and
is owned by the given worker; the workers and message record sets are
untouched, and the returned job is some formerly waiting job with only
its status, owner and update stamp rewritten, every job row being either
left as it was or replaced by the returned job. -/
theorem getJob_claim_success (db : DB) (d : GetJobInput) (j : Job) (db' : DB)
    (h : getJob db d = (Except.ok (some j), db')) :
    j.status = JobStatus.running ∧ j.job_worker = some d.workerId ∧
      db'.workers = db.workers ∧ db'.log_messages = db.log_messages ∧
      ∃ old ∈ db.jobs, old.status = JobStatus.waiting ∧
        j = { old with
              status := JobStatus.running, job_worker := some d.workerId,
              updatedAt := db.now } ∧
        List.Forall₂ (fun a b => b = a ∨ b = j) db.jobs db'.jobs := by
  rw [getJob] at h
  cases hfw : findWorker db d.workerId with
  | none => rw [hfw] at h; exact absurd h (by simp)
  | some w =>
    rw [hfw] at h
    cases hsel : findOneWaiting db.jobs with
    | none => rw [hsel] at h; exact absurd h (by simp)
    | some sel =>
      rw [hsel] at h
      simp only [Prod.mk.injEq, Except.ok.injEq, Option.some.injEq] at h
      obtain ⟨hj, hdb⟩ := h
      have hwid : w.id = d.workerId := by
        have := List.find?_some
          (show db.workers.find? (fun x => x.id == d.workerId) = some w from hfw)
        simpa using this
      have hmem : sel ∈ db.jobs :=
        List.mem_of_find?_eq_some
          (show db.jobs.find? (fun x => x.status == JobStatus.waiting) = some sel from hsel)
      have hstat : sel.status = JobStatus.waiting := by
        have := List.find?_some
          (show db.jobs.find? (fun x => x.status == JobStatus.waiting) = some sel from hsel)
        simpa using this
      subst hj
      subst hdb
      rw [hwid]
      refine ⟨rfl, rfl, rfl, rfl, sel, hmem, hstat, rfl, ?_⟩
      rw [List.forall₂_map_right_iff]
      rw [List.forall₂_same]
      intro x _
      by_cases hx : (x.id == sel.id) = true
      · right; simp [hx]
      · left; simp [hx]

/-- C4 witness: the first claim on the two-job example state returns job 1
running and owned by worker 1, with the characterization holding for the
concrete before and after states. -/
theorem getJob_claim_success_witness :
    jClaim.status = JobStatus.running ∧ jClaim.job_worker = some 1 ∧
      dbClaimed.workers = dbEx.workers ∧ dbClaimed.log_messages = dbEx.log_messages ∧
      ∃ old ∈ dbEx.jobs, old.status = JobStatus.waiting ∧
        jClaim = { old with
                   status := JobStatus.running, job_worker := some 1,
                   updatedAt := dbEx.now } ∧
        List.Forall₂ (fun a b => b = a ∨ b = jClaim) dbEx.jobs dbClaimed.jobs :=
  getJob_claim_success dbEx { workerId := 1 } jClaim dbClaimed rfl

/-! ### C3: every mutation preserves the job invariants -/

/-- C3: every resolver mutation preserves the job invariants on a
well-formed state: the state stays well-formed (distinct ids below the
counter and owner exactly for running or finished jobs), each pre-existing
job row keeps its identity, name, priority, input payload and creation
stamp and its status stays put or advances one step along
waiting → running → finished, and every newly created job row starts
waiting with no owner. -/
theorem mutation_preserves_invariants (db : DB) (m : Mutation) (h : db.wf) :
    (applyMutation db m).wf ∧
      List.Forall₂ stepOK db.jobs ((applyMutation db m).jobs.take db.jobs.length) ∧
      ∀ j ∈ (applyMutation db m).jobs.drop db.jobs.length,
        j.status = JobStatus.waiting ∧ j.job_worker = none := by
  obtain ⟨hnd, hlt, hinv⟩ := h
  cases m with
  | createJobWorker d =>
    exact wf_step_of_jobs_eq db _ rfl rfl ⟨hnd, hlt, hinv⟩
  | createLogMessage d =>
    exact wf_step_of_jobs_eq db _ (createLogMessage_jobs_eq db d)
      (createLogMessage_nextJobId_eq db d) ⟨hnd, hlt, hinv⟩
  | createJob d =>
    simp only [applyMutation, createJob]
    refine ⟨⟨?_, ?_, ?_⟩, ?_, ?_⟩
    · rw [List.map_append, List.nodup_append]
      refine ⟨hnd, List.nodup_singleton _, ?_⟩
      intro a ha hb
      have hb' : a = db.nextJobId := by simpa using hb
      subst hb'
      obtain ⟨jx, hjx, hjid⟩ := List.mem_map.mp ha
      exact absurd (hjid ▸ hlt jx hjx) (lt_irrefl _)
    · intro j hj
      rcases List.mem_append.mp hj with hl | hr
      · exact Nat.lt_succ_of_lt (hlt j hl)
      · have : j.id = db.nextJobId := by simpa using congrArg Job.id (by simpa using hr)
        rw [this]
        exact Nat.lt_succ_self _
    · intro j hj
      rcases List.mem_append.mp hj with hl | hr
      · exact hinv j hl
      · have hj' := List.mem_singleton.mp hr
        subst hj'
        simp [ownerInv]
    · rw [List.take_left]
      exact List.forall₂_same.mpr fun x _ => stepOK_refl x
    · rw [List.drop_left]
      intro j hj
      have hj' := List.mem_singleton.mp hj
      subst hj'
      exact ⟨rfl, rfl⟩
  | getJob d =>
    cases hfw : findWorker db d.workerId with
    | none =>
      refine wf_step_of_jobs_eq db _ ?_ ?_ ⟨hnd, hlt, hinv⟩ <;>
        simp [applyMutation, getJob, hfw]
    | some w =>
      cases hsel : findOneWaiting db.jobs with
      | none =>
        refine wf_step_of_jobs_eq db _ ?_ ?_ ⟨hnd, hlt, hinv⟩ <;>
          simp [applyMutation, getJob, hfw, hsel]
      | some sel =>
        have hselmem : sel ∈ db.jobs :=
          List.mem_of_find?_eq_some
            (show db.jobs.find? (fun x => x.status == JobStatus.waiting) = some sel
              from hsel)
        have hstat : sel.status = JobStatus.waiting := by
          have := List.find?_some
            (show db.jobs.find? (fun x => x.status == JobStatus.waiting) = some sel
              from hsel)
          simpa using this
        simp only [applyMutation, getJob, hfw, hsel]
        set sel' : Job :=
          { sel with
            job_worker := some w.id, status := JobStatus.running, updatedAt := db.now }
          with hsel'
        set f : Job → Job := fun k => if k.id == sel.id then sel' else k with hf
        have hfid : ∀ k : Job, (f k).id = k.id := by
          intro k
          by_cases hk : (k.id == sel.id) = true
          · have hk' : k.id = sel.id := by simpa using hk
            simp only [hf]
            rw [if_pos hk]
            exact hk'.symm
          · simp only [hf]
            rw [if_neg hk]
        have hmapid : (db.jobs.map f).map Job.id = db.jobs.map Job.id := by
          rw [List.map_map]
          exact List.map_congr_left fun k _ => hfid k
        refine ⟨⟨?_, ?_, ?_⟩, ?_, ?_⟩
        · rw [hmapid]
          exact hnd
        · intro j hj
          obtain ⟨k, hk, rfl⟩ := List.mem_map.mp hj
          rw [hfid k]
          exact hlt k hk
        · intro j hj
          obtain ⟨k, hk, rfl⟩ := List.mem_map.mp hj
          by_cases hkid : (k.id == sel.id) = true
          · simp only [hf, if_pos hkid]
            simp [ownerInv, hsel']
          · simp only [hf, if_neg hkid]
            exact hinv k hk
        · have hlen : (db.jobs.map f).length = db.jobs.length := List.length_map _ _
          rw [← hlen, List.take_length, List.forall₂_map_right_iff, List.forall₂_same]
          intro x hx
          by_cases hxid : (x.id == sel.id) = true
          · have hx' : x = sel :=
              List.inj_on_of_nodup_map hnd hx hselmem (by simpa using hxid)
            subst hx'
            simp only [hf, if_pos hxid]
            exact ⟨rfl, rfl, rfl, rfl, rfl, Or.inr (Or.inl ⟨hstat, rfl⟩)⟩
          · simp only [hf, if_neg hxid]
            exact stepOK_refl x
        · have hlen : (db.jobs.map f).length = db.jobs.length := List.length_map _ _
          rw [← hlen, List.drop_length]
          simp

/-- C3 witness: the well-formed two-job example state stays well-formed
and invariant-respecting across a claim. -/
theorem mutation_preserves_invariants_witness :
    dbEx.wf ∧
      ((applyMutation dbEx (Mutation.getJob { workerId := 1 })).wf ∧
        List.Forall₂ stepOK dbEx.jobs
          ((applyMutation dbEx (Mutation.getJob { workerId := 1 })).jobs.take
            dbEx.jobs.length) ∧
        ∀ j ∈ (applyMutation dbEx (Mutation.getJob { workerId := 1 })).jobs.drop
            dbEx.jobs.length,
          j.status = JobStatus.waiting ∧ j.job_worker = none) :=
  ⟨by decide, mutation_preserves_invariants dbEx (Mutation.getJob { workerId := 1 })
    (by decide)⟩

/-! ### C8: no exposed operation completes a job -/

/-- C8: the resolver exposes no CompleteJob operation — across the whole
mutation surface, no call ever produces a job with status finished or a
recorded output payload; starting from any state without finished jobs or
output payloads, every reachable state is again without them, so the
behavior the claim requires of CompleteJob (finishing a running job and
recording outData) is implemented by no operation of the code. -/
theorem no_completion_operation (db : DB) (m : Mutation)
    (h : ∀ j ∈ db.jobs, j.status ≠ JobStatus.finished ∧ j.outData = none) :
    ∀ j ∈ (applyMutation db m).jobs, j.status ≠ JobStatus.finished ∧ j.outData = none := by
  cases m with
  | createJobWorker d => exact h
  | createLogMessage d =>
    simp only [applyMutation]
    rw [createLogMessage_jobs_eq]
    exact h
  | createJob d =>
    simp only [applyMutation, createJob]
    intro j hj
    rcases List.mem_append.mp hj with hl | hr
    · exact h j hl
    · have hj' := List.mem_singleton.mp hr
      subst hj'
      exact ⟨fun hc => JobStatus.noConfusion hc, rfl⟩
  | getJob d =>
    cases hfw : findWorker db d.workerId with
    | none => simpa [applyMutation, getJob, hfw] using h
    | some w =>
      cases hsel : findOneWaiting db.jobs with
      | none => simpa [applyMutation, getJob, hfw, hsel] using h
      | some sel =>
        have hselmem : sel ∈ db.jobs :=
          List.mem_of_find?_eq_some
            (show db.jobs.find? (fun x => x.status == JobStatus.waiting) = some sel
              from hsel)
        simp only [applyMutation, getJob, hfw, hsel]
        intro j hj
        obtain ⟨k, hk, rfl⟩ := List.mem_map.mp hj
        by_cases hkid : (k.id == sel.id) = true
        · rw [if_pos hkid]
          exact ⟨fun hc => JobStatus.noConfusion hc, (h sel hselmem).2⟩
        · rw [if_neg hkid]
          exact h k hk

/-- C8 witness: from the two-job example state, a claim produces no
finished job and writes no output payload. -/
theorem no_completion_operation_witness :
    (∀ j ∈ dbEx.jobs, j.status ≠ JobStatus.finished ∧ j.outData = none) ∧
      ∀ j ∈ (applyMutation dbEx (Mutation.getJob { workerId := 1 })).jobs,
        j.status ≠ JobStatus.finished ∧ j.outData = none :=
  ⟨by decide, no_completion_operation dbEx (Mutation.getJob { workerId := 1 }) (by decide)⟩

end JobQueue
